import Mathlib

/-!
Verification of the AgentCheck-M crawl-and-discover pipeline.

This development gives a shallow embedding of the data model and the algorithms
of the repository (src/models.py, src/crawler.py, src/orchestrator.py,
src/site_mapper/agents/flow_discovery/agent.py) and proves properties of the
embedded definitions.  Scores are rationals (ℚ); Python strings are Lean
strings operated on through their character lists; Python dictionaries whose
insertion order matters are association lists in source order.
-/

namespace AgentCheck

attribute [local semireducible] Rat.add Rat.mul Rat.sub Rat.inv

/-! ### Python primitives -/

/-- Python `min` on two rationals, kept kernel-computable. -/
def ratMin (a b : ℚ) : ℚ := if a ≤ b then a else b

/-- Python `max` on two rationals, kept kernel-computable. -/
def ratMax (a b : ℚ) : ℚ := if b ≤ a then a else b

/-- Python `str.lower` for one ASCII character. -/
def pyCharLower (c : Char) : Char :=
  if 'A' ≤ c ∧ c ≤ 'Z' then Char.ofNat (c.toNat + 32) else c

/-- Python `str.lower` (ASCII model). -/
def pyLower (s : String) : String :=
  ⟨s.data.map pyCharLower⟩

/-- Whether the first list is an initial segment of the second. -/
def listLeads : List Char → List Char → Bool
  | [], _ => true
  | _ :: _, [] => false
  | a :: as, b :: bs => a == b && listLeads as bs

/-- Whether the first list occurs contiguously inside the second. -/
def listInside (needle hay : List Char) : Bool :=
  listLeads needle hay ||
    (match hay with
     | [] => false
     | _ :: rest => listInside needle rest)

/-- Python `needle in hay` substring test. -/
def strContains (hay needle : String) : Bool :=
  listInside needle.data hay.data

/-- Python `s.startswith(p)`. -/
def strStartsWith (s p : String) : Bool :=
  listLeads p.data s.data

/-- Python `s.endswith(p)`. -/
def strEndsWith (s p : String) : Bool :=
  listLeads p.data.reverse s.data.reverse

/-- `re.split` with a one-or-more quantified character class: splits the list on
maximal runs of separators, keeping empty pieces only at the two ends. -/
def splitRuns (p : Char → Bool) : List Char → List (List Char)
  | [] => [[]]
  | c :: rest =>
    if p c then
      match rest with
      | [] => [[], []]
      | c2 :: _ => if p c2 then splitRuns p rest else [] :: splitRuns p rest
    else
      match splitRuns p rest with
      | [] => [[c]]
      | t :: ts => (c :: t) :: ts

/-- Python `str.split(sep)` for a single-character separator (no run
collapsing; adjacent separators give empty pieces). -/
def splitChar (c : Char) : List Char → List (List Char)
  | [] => [[]]
  | x :: rest =>
    if x = c then [] :: splitChar c rest
    else
      match splitChar c rest with
      | [] => [[x]]
      | t :: ts => (x :: t) :: ts

/-- Python `str.strip(c)` for a single character. -/
def pyStripChar (c : Char) (l : List Char) : List Char :=
  ((l.dropWhile (· = c)).reverse.dropWhile (· = c)).reverse

/-- Python `" ".join(l)`. -/
def joinSpace : List String → String
  | [] => ""
  | [s] => s
  | s :: rest => s ++ " " ++ joinSpace rest

/-! ### Site map model (src/models.py) -/

/-- One interactive element (src/models.py `Element`); only the fields that
`SiteMap.add_element` inspects plus identifying payload are carried — the
remaining metadata fields play no role in any mutation. -/
structure Element where
  id : String
  type : String
  text : String
  selector : String
  page_url : String
deriving DecidableEq, Repr

/-- The crawl aggregate (src/models.py `SiteMap`), restricted to the fields
touched by `add_page` / `add_element`. -/
structure SiteMap where
  url : String
  domain : String
  elements : List Element
  pages : List String
  pages_crawled : Nat
  elements_discovered : Nat
deriving DecidableEq, Repr

/-- A fresh site map, as built at the start of a crawl run. -/
def SiteMap.empty (url domain : String) : SiteMap :=
  ⟨url, domain, [], [], 0, 0⟩

/-- `SiteMap.add_element`: scan for a `(selector, page_url)` collision; on a
collision return unchanged, otherwise append and recompute the counter. -/
def SiteMap.add_element (m : SiteMap) (e : Element) : SiteMap :=
  if m.elements.any (fun x => x.selector == e.selector && x.page_url == e.page_url) then m
  else { m with elements := m.elements ++ [e],
                elements_discovered := (m.elements ++ [e]).length }

/-- `SiteMap.add_page`: append the URL if not already present and recompute the
counter. -/
def SiteMap.add_page (m : SiteMap) (u : String) : SiteMap :=
  if u ∈ m.pages then m
  else { m with pages := m.pages ++ [u], pages_crawled := (m.pages ++ [u]).length }

/-- One mutation of the site map, as issued by the crawl loop. -/
inductive SMOp where
  | addPage (url : String)
  | addElement (e : Element)
deriving DecidableEq, Repr

def applyOp (m : SiteMap) : SMOp → SiteMap
  | .addPage u => m.add_page u
  | .addElement e => m.add_element e

def applyOps (m : SiteMap) (ops : List SMOp) : SiteMap :=
  ops.foldl applyOp m

/-- The site-map invariants: counters agree with list lengths, visited pages
are unique, and at most one element exists per `(selector, page_url)` pair. -/
def SMInv (m : SiteMap) : Prop :=
  m.pages_crawled = m.pages.length ∧
  m.elements_discovered = m.elements.length ∧
  m.pages.Nodup ∧
  m.elements.Pairwise (fun a b => ¬(a.selector = b.selector ∧ a.page_url = b.page_url))

def eW1 : Element := ⟨"el_0001", "button", "Add to Cart", "#cart-btn", "https://a.com"⟩

def eW2 : Element := ⟨"el_0002", "button", "Add To Cart!", "#cart-btn", "https://a.com"⟩

def mW : SiteMap :=
  ⟨"https://a.com", "a.com", [eW1], ["https://a.com"], 1, 1⟩

/-! ### Flow discovery scorer (src/site_mapper/agents/flow_discovery/agent.py) -/

/-- `ELEMENT_TYPE_WEIGHTS`, in Python dict insertion order. -/
def ELEMENT_TYPE_WEIGHTS : List (String × ℚ) :=
  [("search", 2), ("button", 3/2), ("form", 7/5), ("input", 6/5),
   ("link", 1), ("dropdown", 13/10), ("checkbox", 11/10), ("select", 13/10)]

/-- `HIGH_VALUE_KEYWORDS`, in Python dict insertion order. -/
def HIGH_VALUE_KEYWORDS : List (String × ℚ) :=
  [("cart", 2), ("checkout", 2), ("buy", 9/5), ("purchase", 9/5),
   ("login", 9/5), ("signin", 9/5), ("signup", 9/5), ("register", 17/10),
   ("search", 9/5), ("filter", 3/2), ("sort", 7/5),
   ("book", 17/10), ("reserve", 17/10), ("schedule", 3/2),
   ("submit", 3/2), ("save", 13/10), ("add", 13/10),
   ("profile", 7/5), ("settings", 7/5), ("account", 7/5)]

/-- The separator class of the regex split in `_calculate_element_score`:
the characters of the class plus regex whitespace. -/
def isKeywordSep (c : Char) : Bool :=
  c = '[' || c = ']' || c = '=' || c = ' ' || c = '\t' || c = '\n' || c = '\r' ||
  c.toNat = 11 || c.toNat = 12 ||
  c = '-' || c = '_' || c = '(' || c = ')' || c = '.' || c = ',' || c = ':'

/-- The element type recognized from a lowercased descriptor: the first table
entry whose `"type:"` or `"[type]"` marker occurs, else `"unknown"`. -/
def elementTypeOf (lower : String) : String :=
  match ELEMENT_TYPE_WEIGHTS.find? (fun tw =>
      strStartsWith lower (tw.1 ++ ":") || strContains lower ("[" ++ tw.1 ++ "]")) with
  | some tw => tw.1
  | none => "unknown"

/-- `ELEMENT_TYPE_WEIGHTS.get(element_type, 1.0)`. -/
def elementTypeWeight (etype : String) : ℚ :=
  ((ELEMENT_TYPE_WEIGHTS.find? (fun tw => tw.1 == etype)).map Prod.snd).getD 1

/-- At most one high-value keyword boost, applied in table order. -/
def keywordBoost (lower : String) (w : ℚ) : ℚ :=
  match HIGH_VALUE_KEYWORDS.find? (fun kw => strContains lower kw.1) with
  | some kw => w * kw.2
  | none => w

/-- `_extract_element_info`: element type, lowercased text, and weight. -/
def extractElementInfo (s : String) : String × String × ℚ :=
  (elementTypeOf (pyLower s), pyLower s,
    keywordBoost (pyLower s) (elementTypeWeight (elementTypeOf (pyLower s))))

/-- The keyword tokens of a pattern phrase: regex split on the separator class,
keeping tokens of length at least 3. -/
def phraseKeywords (pl : String) : List (List Char) :=
  (splitRuns isKeywordSep pl.data).filter (fun k => 3 ≤ k.length)

/-- The base weight of a pattern phrase: the first high-value keyword contained
in it, else 1. -/
def phraseBaseWeight (pl : String) : ℚ :=
  match HIGH_VALUE_KEYWORDS.find? (fun kw => strContains pl kw.1) with
  | some kw => kw.2
  | none => 1

/-- The best match score of a lowercased pattern phrase over the site element
descriptors: direct substring scores the element weight, a keyword-token match
scores 0.7 of it, a 4-character keyword-prefix match 0.3 of it. -/
def bestMatchScore (siteElements : List String) (pl : String)
    (keywords : List (List Char)) : ℚ :=
  siteElements.foldl
    (fun best se =>
      let info := extractElementInfo se
      let ms : ℚ :=
        if strContains info.2.1 pl then info.2.2
        else if keywords.any (fun kw => listInside kw info.2.1.data) then (7/10) * info.2.2
        else if keywords.any (fun kw => 4 ≤ kw.length && listInside (kw.take 4) info.2.1.data) then
          (3/10) * info.2.2
        else 0
      ratMax best ms)
    0

/-- The running pair `(total_weight, matched_weight)` of
`_calculate_element_score`. -/
def elementScoreSums (siteElements patternElements : List String) : ℚ × ℚ :=
  patternElements.foldl
    (fun acc pe =>
      let pl := pyLower pe
      (acc.1 + phraseBaseWeight pl,
       acc.2 + ratMin (phraseBaseWeight pl) (bestMatchScore siteElements pl (phraseKeywords pl))))
    ((0 : ℚ), (0 : ℚ))

/-- `_calculate_element_score`: per-phrase best match capped at the phrase base
weight, normalized by the sum of base weights, capped at 1. -/
def elementScore (siteElements patternElements : List String) : ℚ :=
  if patternElements.isEmpty then 0
  else
    ratMin 1
      (if 0 < (elementScoreSums siteElements patternElements).1 then
        (elementScoreSums siteElements patternElements).2 /
          (elementScoreSums siteElements patternElements).1
      else 0)

/-- Whether a nonempty `/`-separated part of the pattern fragment equals a
`/`-separated segment of the URL. -/
def pathSegMatch (pl ul : String) : Bool :=
  (splitChar '/' (pyStripChar '/' pl.data)).any
    (fun part => !part.isEmpty && (splitChar '/' ul.data).contains part)

/-- The credit of one lowercased pattern URL fragment in `_calculate_url_score`:
site URLs are scanned in order and the first URL matching any tier decides —
direct substring 1, path segment 0.7, and for `?`-fragments a direct
substring 0.8. -/
def fragCredit (siteUrls : List String) (pl : String) : ℚ :=
  match siteUrls with
  | [] => 0
  | u :: rest =>
    if strContains (pyLower u) pl then 1
    else if pathSegMatch pl (pyLower u) then 7/10
    else if strStartsWith pl "?" && strContains (pyLower u) pl then 8/10
    else fragCredit rest pl

/-- `fragCredit` with the `?`-fragment tier removed (for comparison). -/
def fragCreditNoQuery (siteUrls : List String) (pl : String) : ℚ :=
  match siteUrls with
  | [] => 0
  | u :: rest =>
    if strContains (pyLower u) pl then 1
    else if pathSegMatch pl (pyLower u) then 7/10
    else fragCreditNoQuery rest pl

/-- `_calculate_url_score`: total fragment credit normalized by the number of
pattern URL fragments, capped at 1. -/
def urlScore (siteUrls patternUrls : List String) : ℚ :=
  if patternUrls.isEmpty then 0
  else
    ratMin 1
      ((patternUrls.foldl (fun acc pu => acc + fragCredit siteUrls (pyLower pu)) 0) /
        (patternUrls.length : ℚ))

/-- `urlScore` built on the query-tier-free credit (for comparison). -/
def urlScoreNoQuery (siteUrls patternUrls : List String) : ℚ :=
  if patternUrls.isEmpty then 0
  else
    ratMin 1
      ((patternUrls.foldl (fun acc pu => acc + fragCreditNoQuery siteUrls (pyLower pu)) 0) /
        (patternUrls.length : ℚ))

/-- How many pattern phrases occur verbatim (case-insensitively) in the joined
site-descriptor text. -/
def contextFound (siteElements patternElements : List String) : Nat :=
  (patternElements.filter
    (fun pe => strContains (pyLower (joinSpace siteElements)) (pyLower pe))).length

/-- `_calculate_context_bonus`: 0.3 if at least 3 pattern phrases co-occur,
0.15 if at least 2, else 0; patterns with fewer than two phrases get 0. -/
def contextBonus (siteElements patternElements : List String) : ℚ :=
  if patternElements.length < 2 then 0
  else if 3 ≤ contextFound siteElements patternElements then 3/10
  else if 2 ≤ contextFound siteElements patternElements then 15/100
  else 0

/-- `_calculate_semantic_score`: `none` models every early-return path
(capability unavailable, missing cached embedding, empty site text, exception);
`some sim` is the raw cosine similarity of the opaque embedder, rescaled from
[-1, 1] to [0, 1] and clamped. -/
def semanticScore : Option ℚ → ℚ
  | none => 0
  | some sim => ratMax 0 (ratMin 1 ((sim + 1) / 2))

def ELEMENT_WEIGHT : ℚ := 40/100

def URL_WEIGHT : ℚ := 20/100

def SEMANTIC_WEIGHT : ℚ := 30/100

def CONTEXT_WEIGHT : ℚ := 10/100

def CONFIDENCE_THRESHOLD : ℚ := 7/10

/-- `_calculate_confidence`: the weighted sum over the class weights in
semantic mode, and the hard-coded redistributed weights otherwise. -/
def calcConfidence (useSemantic : Bool) (elementSc urlSc semanticSc ctxBonus : ℚ) : ℚ :=
  if useSemantic then
    elementSc * ELEMENT_WEIGHT + urlSc * URL_WEIGHT +
      semanticSc * SEMANTIC_WEIGHT + ctxBonus * CONTEXT_WEIGHT
  else
    elementSc * (55/100) + urlSc * (35/100) + ctxBonus * (10/100)

/-- The scoring-relevant fields of a catalog pattern. -/
structure FlowPattern where
  pid : String
  elements : List String
  urls : List String
deriving DecidableEq, Repr

/-- The confidence `discover` computes for one pattern: element, URL, semantic
and context signals combined; `sim` is the opaque embedder similarity. -/
def scorePattern (useSemantic : Bool) (siteElements siteUrls : List String)
    (p : FlowPattern) (sim : Option ℚ) : ℚ :=
  calcConfidence useSemantic
    (elementScore siteElements p.elements)
    (urlScore siteUrls p.urls)
    (semanticScore (if useSemantic then sim else none))
    (contextBonus siteElements p.elements)

inductive FlowType where
  | happy_path
  | partial_flow
deriving DecidableEq, Repr

/-- The classification branch of `discover`. -/
def classify (confidence : ℚ) (includePartial : Bool) : Option FlowType :=
  if CONFIDENCE_THRESHOLD ≤ confidence then some FlowType.happy_path
  else if 3/10 ≤ confidence ∧ includePartial = true then some FlowType.partial_flow
  else none

/-- Python `round` to an integer (round half to even). -/
def roundHalfEven (x : ℚ) : ℤ :=
  let f := Int.fdiv x.num x.den
  if x - f < 1/2 then f
  else if 1/2 < x - f then f + 1
  else if f % 2 = 0 then f else f + 1

/-- Python `round(x, 2)`. -/
def pyRound2 (x : ℚ) : ℚ :=
  (roundHalfEven (x * 100) : ℚ) / 100

/-- One discovered flow, keeping the fields the claims are about. -/
structure Flow where
  pid : String
  ftype : FlowType
  confidence : ℚ
deriving DecidableEq, Repr

/-- The body of the pattern loop in `discover` for one pattern. -/
def discoverOne (useSemantic : Bool) (siteElements siteUrls : List String)
    (includePartial : Bool) (ps : FlowPattern × Option ℚ) : Option Flow :=
  match classify (scorePattern useSemantic siteElements siteUrls ps.1 ps.2) includePartial with
  | some ft =>
    some ⟨ps.1.pid, ft, pyRound2 (scorePattern useSemantic siteElements siteUrls ps.1 ps.2)⟩
  | none => none

/-- Stable insertion of a flow into a descending-confidence list: a later flow
moves ahead only past strictly smaller confidences. -/
def insertDesc (f : Flow) : List Flow → List Flow
  | [] => [f]
  | g :: gs => if f.confidence < g.confidence then g :: insertDesc f gs else f :: g :: gs

/-- Python stable `sort(key=confidence, reverse=True)`. -/
def sortByConfDesc : List Flow → List Flow
  | [] => []
  | f :: fs => insertDesc f (sortByConfDesc fs)

/-- `discover`: score every active pattern, keep the classified ones and sort
them by descending (rounded) confidence. -/
def discoverFlows (useSemantic : Bool) (siteElements siteUrls : List String)
    (patterns : List (FlowPattern × Option ℚ)) (includePartial : Bool) : List Flow :=
  sortByConfDesc
    (patterns.filterMap (discoverOne useSemantic siteElements siteUrls includePartial))

def seW : List String := ["button: Add to Cart (button.add-cart)"]

def suW : List String := ["https://x.com/cart"]

def pW : FlowPattern := ⟨"cart_flow", ["add to cart"], ["/cart"]⟩

/-! ### Crawl loop link enqueueing (src/orchestrator.py) -/

/-- One step of the fallback link-enqueue loop: skip links already visited or
already queued, append the rest at the back. -/
def enqueueStep (visited queue : List String) (link : String) : List String :=
  if link ∈ visited ∨ link ∈ queue then queue else queue ++ [link]

/-- The fallback enqueue after a successful fetch: iterate over
`new_links[:5]` and append each unvisited, unqueued link to the frontier. -/
def enqueueLinks (visited urlsToVisit newLinks : List String) : List String :=
  (newLinks.take 5).foldl (enqueueStep visited) urlsToVisit

/-! ### Link extraction (src/crawler.py) -/

/-- Python `u.split("#")[0].split("?")[0]`. -/
def stripFragQuery (u : String) : String :=
  ⟨(u.data.takeWhile (fun c => c ≠ '#')).takeWhile (fun c => c ≠ '?')⟩

/-- Python `u.rstrip(c)` for a single character. -/
def pyRstrip (c : Char) (u : String) : String :=
  ⟨(u.data.reverse.dropWhile (· = c)).reverse⟩

/-- The characters after the first `"://"`, when present. -/
def afterSchemeAux : List Char → Option (List Char)
  | [] => none
  | ':' :: '/' :: '/' :: rest => some rest
  | _ :: rest => afterSchemeAux rest

/-- The host portion of a URL: everything between the scheme separator and the
next slash. -/
def hostOf (u : String) : String :=
  ⟨((afterSchemeAux u.data).getD u.data).takeWhile (fun c => c ≠ '/')⟩

/-- Models `get_domain` (tldextract's `f"{ext.domain}.{ext.suffix}"`) for hosts
whose public suffix is a single label: the registrable domain is the last two
dot-separated labels of the host. -/
def getDomain (url : String) : String :=
  match (splitChar '.' (hostOf url).data).reverse with
  | suf :: dom :: _ => (⟨dom⟩ : String) ++ "." ++ (⟨suf⟩ : String)
  | [only] => (⟨only⟩ : String) ++ "."
  | [] => "."

/-- `same_site`: registrable domains agree. -/
def sameSite (base u : String) : Bool :=
  getDomain base == getDomain u

/-- The anchor hrefs `extract_internal_links` skips outright. -/
def isSkippedHref (h : String) : Bool :=
  h.isEmpty || strStartsWith h "#" || strStartsWith h "javascript:" ||
  strStartsWith h "mailto:" || strStartsWith h "tel:"

/-- The static-asset extensions of the exclusion regex. -/
def ASSET_EXTENSIONS : List String := ["jpg", "jpeg", "png", "gif", "css", "js", "pdf", "zip"]

/-- The case-insensitive anchored extension check
`re.search(r"\.(jpg|jpeg|png|gif|css|js|pdf|zip)$", u, re.I)`. -/
def isAssetUrl (u : String) : Bool :=
  ASSET_EXTENSIONS.any (fun ext => strEndsWith (pyLower u) ("." ++ ext))

/-- The scheme-plus-host part of a URL. -/
def schemeAndHost (base : String) : String :=
  match afterSchemeAux base.data with
  | some rest => (⟨base.data.take (base.data.length - rest.length)⟩ : String) ++ hostOf base
  | none => hostOf base

/-- The directory of a URL for relative resolution: up to the last slash, or
the host root when the URL has no path. -/
def baseDir (base : String) : String :=
  if ((base.data.reverse.dropWhile (fun c => c ≠ '/')).reverse).length ≤
      (schemeAndHost base).data.length then
    schemeAndHost base ++ "/"
  else ⟨(base.data.reverse.dropWhile (fun c => c ≠ '/')).reverse⟩

/-- Models `urllib.parse.urljoin` for the href shapes met here: absolute URLs
pass through, root-relative paths resolve against scheme+host, and other hrefs
resolve against the base directory. -/
def urljoin (base href : String) : String :=
  if strStartsWith href "http://" || strStartsWith href "https://" then href
  else if strStartsWith href "/" then schemeAndHost base ++ href
  else baseDir base ++ href

/-- One anchor of the `extract_internal_links` loop: skip
fragment/script/mail/tel hrefs, resolve against the base URL, strip fragment
and query, strip trailing slashes, deduplicate via the `seen` set, and keep
same-site non-asset URLs.  The accumulator pairs the `seen` set (as a list)
with the collected links. -/
def linkStep (baseUrl : String) (acc : List String × List String) (href : String) :
    List String × List String :=
  if isSkippedHref href then acc
  else
    if pyRstrip '/' (stripFragQuery (urljoin baseUrl href)) ∈ acc.1 then acc
    else
      (acc.1 ++ [pyRstrip '/' (stripFragQuery (urljoin baseUrl href))],
       if sameSite baseUrl (pyRstrip '/' (stripFragQuery (urljoin baseUrl href))) &&
           !isAssetUrl (pyRstrip '/' (stripFragQuery (urljoin baseUrl href))) then
         acc.2 ++ [pyRstrip '/' (stripFragQuery (urljoin baseUrl href))]
       else acc.2)

/-- `extract_internal_links`, starting from the anchor hrefs the HTML parse
yields, capped at 100 entries. -/
def extractInternalLinks (hrefs : List String) (baseUrl : String) : List String :=
  ((hrefs.foldl (linkStep baseUrl) (([] : List String), ([] : List String))).2).take 100

/-! ### Pattern catalog loading (src/site_mapper/agents/flow_discovery/agent.py) -/

/-- The two top-level mappings of patterns.json. -/
structure PatternCatalog where
  core_patterns : List (String × FlowPattern)
  learned_patterns : List (String × FlowPattern)
deriving DecidableEq, Repr

/-- The fallback catalog `_load_patterns` returns for a missing file. -/
def emptyCatalog : PatternCatalog := ⟨[], []⟩

/-- The observable states of the catalog file. -/
inductive CatalogFile where
  | missing
  | corrupt
  | parsed (catalog : PatternCatalog)
deriving DecidableEq, Repr

/-- `_load_patterns`: `open` raises `FileNotFoundError` on a missing file,
which is caught and turned into the empty catalog; `json.load` raises
`json.JSONDecodeError` on corrupt contents, which is NOT caught (the `except`
clause names only `FileNotFoundError`), so the error propagates. -/
def loadPatterns : CatalogFile → Except String PatternCatalog
  | .missing => .ok emptyCatalog
  | .corrupt => .error "json.JSONDecodeError"
  | .parsed c => .ok c

/-! ### Helper lemmas -/

lemma ratMin_eq (a b : ℚ) : ratMin a b = min a b := by
  rw [ratMin, min_def]

lemma ratMax_eq (a b : ℚ) : ratMax a b = max a b := by
  rw [ratMax, max_def]
  rcases le_total a b with h | h
  · rcases eq_or_lt_of_le h with rfl | hlt
    · simp
    · rw [if_pos h, if_neg (not_le.mpr hlt)]
  · rw [if_pos h]
    rcases eq_or_lt_of_le h with rfl | hlt
    · simp
    · rw [if_neg (not_le.mpr hlt)]

lemma foldl_preserve {α β : Type} {f : β → α → β} {P : β → Prop}
    (hstep : ∀ b a, P b → P (f b a)) :
    ∀ (l : List α) (b : β), P b → P (l.foldl f b) := by
  intro l
  induction l with
  | nil => exact fun b hb => hb
  | cons x xs ih => exact fun b hb => ih (f b x) (hstep b x hb)

lemma SMInv_empty (url domain : String) : SMInv (SiteMap.empty url domain) :=
  ⟨rfl, rfl, List.nodup_nil, List.Pairwise.nil⟩

lemma SMInv_add_page {m : SiteMap} (h : SMInv m) (u : String) : SMInv (m.add_page u) := by
  unfold SiteMap.add_page
  split
  · exact h
  · rename_i hu
    refine ⟨rfl, h.2.1, ?_, h.2.2.2⟩
    rw [List.nodup_append]
    exact ⟨h.2.2.1, List.nodup_singleton u, by simpa using hu⟩

lemma SMInv_add_element {m : SiteMap} (h : SMInv m) (e : Element) :
    SMInv (m.add_element e) := by
  unfold SiteMap.add_element
  split
  · exact h
  · rename_i hcol
    refine ⟨h.1, rfl, h.2.2.1, ?_⟩
    rw [List.pairwise_append]
    refine ⟨h.2.2.2, List.pairwise_singleton _ _, ?_⟩
    intro a ha b hb
    simp only [List.mem_singleton] at hb
    subst hb
    simp only [List.any_eq_true, Bool.and_eq_true, beq_iff_eq, not_exists, not_and] at hcol
    push_neg at hcol
    exact fun hab => hcol a ha hab.1 hab.2

lemma SMInv_applyOps {m : SiteMap} (h : SMInv m) (ops : List SMOp) :
    SMInv (applyOps m ops) := by
  induction ops generalizing m with
  | nil => exact h
  | cons op rest ih =>
    cases op with
    | addPage u => exact ih (SMInv_add_page h u)
    | addElement e => exact ih (SMInv_add_element h e)

/-- C3: starting from an empty `SiteMap`, any sequence of `add_page` /
`add_element` calls keeps the counters equal to the list lengths, keeps the
visited pages unique, and keeps at most one element per distinct
`(selector, page_url)` pair; a colliding `add_element` leaves the map entirely
unchanged, and a fresh `add_page` appends at the back (insertion order). -/
theorem siteMap_invariants (url domain : String) (ops : List SMOp)
    (m2 m3 : SiteMap) (e : Element) (u : String)
    (hcol : ∃ x ∈ m2.elements, x.selector = e.selector ∧ x.page_url = e.page_url)
    (hnew : u ∉ m3.pages) :
    SMInv (applyOps (SiteMap.empty url domain) ops) ∧
    m2.add_element e = m2 ∧
    (m3.add_page u).pages = m3.pages ++ [u] := by
  refine ⟨SMInv_applyOps (SMInv_empty url domain) ops, ?_, ?_⟩
  · unfold SiteMap.add_element
    rw [if_pos]
    obtain ⟨x, hx, h1, h2⟩ := hcol
    simp only [List.any_eq_true, Bool.and_eq_true, beq_iff_eq]
    exact ⟨x, hx, h1, h2⟩
  · unfold SiteMap.add_page
    rw [if_neg hnew]

/-- C3 witness: the invariants after a concrete op sequence, a concrete
colliding insertion being a no-op, and a concrete fresh page appended. -/
theorem siteMap_invariants_witness :
    SMInv (applyOps (SiteMap.empty "https://a.com" "a.com")
      [SMOp.addPage "https://a.com", SMOp.addElement eW1, SMOp.addElement eW2]) ∧
    mW.add_element eW2 = mW ∧
    (mW.add_page "https://a.com/b").pages = mW.pages ++ ["https://a.com/b"] :=
  siteMap_invariants "https://a.com" "a.com"
    [SMOp.addPage "https://a.com", SMOp.addElement eW1, SMOp.addElement eW2]
    mW mW eW2 "https://a.com/b"
    ⟨eW1, by decide, by decide, by decide⟩ (by decide)

/-- C2: in semantic mode the confidence is the weighted sum over the weights
0.40 / 0.20 / 0.30 / 0.10; without semantic scoring it is the redistributed sum
over 0.55 / 0.35 / 0.10 ignoring the semantic score entirely; in both modes the
active weights sum to exactly 1 (witnessed by the all-ones evaluation). -/
theorem confidence_weights (e u s c : ℚ) :
    calcConfidence true e u s c =
      e * ELEMENT_WEIGHT + u * URL_WEIGHT + s * SEMANTIC_WEIGHT + c * CONTEXT_WEIGHT ∧
    calcConfidence false e u s c = e * (55/100) + u * (35/100) + c * (10/100) ∧
    calcConfidence false e u s c = calcConfidence false e u 0 c ∧
    ELEMENT_WEIGHT + URL_WEIGHT + SEMANTIC_WEIGHT + CONTEXT_WEIGHT = 1 ∧
    (55 : ℚ)/100 + 35/100 + 10/100 = 1 ∧
    calcConfidence true 1 1 1 1 = 1 ∧
    calcConfidence false 1 1 s 1 = 1 := by
  refine ⟨rfl, rfl, rfl, by decide, by norm_num, by decide, ?_⟩
  show (1 : ℚ) * (55/100) + 1 * (35/100) + 1 * (10/100) = 1
  norm_num

lemma hv_weights_ge_one : ∀ kw ∈ HIGH_VALUE_KEYWORDS, (1 : ℚ) ≤ kw.2 := by decide

lemma et_weights_ge_one : ∀ tw ∈ ELEMENT_TYPE_WEIGHTS, (1 : ℚ) ≤ tw.2 := by decide

lemma phraseBaseWeight_ge_one (pl : String) : 1 ≤ phraseBaseWeight pl := by
  unfold phraseBaseWeight
  cases h : HIGH_VALUE_KEYWORDS.find? (fun kw => strContains pl kw.1) with
  | none => exact le_refl 1
  | some kw => exact hv_weights_ge_one kw (List.mem_of_find?_eq_some h)

lemma elementTypeWeight_nonneg (etype : String) : 0 ≤ elementTypeWeight etype := by
  unfold elementTypeWeight
  cases h : ELEMENT_TYPE_WEIGHTS.find? (fun tw => tw.1 == etype) with
  | none => norm_num
  | some tw =>
    show (0 : ℚ) ≤ tw.2
    exact le_trans zero_le_one (et_weights_ge_one tw (List.mem_of_find?_eq_some h))

lemma keywordBoost_nonneg (lower : String) {w : ℚ} (hw : 0 ≤ w) :
    0 ≤ keywordBoost lower w := by
  unfold keywordBoost
  cases h : HIGH_VALUE_KEYWORDS.find? (fun kw => strContains lower kw.1) with
  | none => exact hw
  | some kw =>
    exact mul_nonneg hw
      (le_trans zero_le_one (hv_weights_ge_one kw (List.mem_of_find?_eq_some h)))

lemma extractElementInfo_weight_nonneg (s : String) : 0 ≤ (extractElementInfo s).2.2 :=
  keywordBoost_nonneg _ (elementTypeWeight_nonneg _)

lemma bestMatchScore_nonneg (siteElements : List String) (pl : String)
    (keywords : List (List Char)) : 0 ≤ bestMatchScore siteElements pl keywords := by
  unfold bestMatchScore
  refine foldl_preserve (P := fun b => 0 ≤ b) ?_ siteElements 0 (le_refl 0)
  intro b a hb
  rw [ratMax_eq]
  exact le_trans hb (le_max_left _ _)

lemma elementScoreSums_nonneg (siteElements patternElements : List String) :
    0 ≤ (elementScoreSums siteElements patternElements).1 ∧
    0 ≤ (elementScoreSums siteElements patternElements).2 := by
  unfold elementScoreSums
  refine foldl_preserve (P := fun acc : ℚ × ℚ => 0 ≤ acc.1 ∧ 0 ≤ acc.2) ?_
    patternElements ((0 : ℚ), (0 : ℚ)) ⟨le_refl 0, le_refl 0⟩
  intro acc pe hacc
  constructor
  · exact add_nonneg hacc.1 (le_trans zero_le_one (phraseBaseWeight_ge_one _))
  · refine add_nonneg hacc.2 ?_
    rw [ratMin_eq]
    exact le_min (le_trans zero_le_one (phraseBaseWeight_ge_one _))
      (bestMatchScore_nonneg _ _ _)

lemma elementScore_bounds (siteElements patternElements : List String) :
    0 ≤ elementScore siteElements patternElements ∧
    elementScore siteElements patternElements ≤ 1 := by
  unfold elementScore
  split
  · norm_num
  · rw [ratMin_eq]
    constructor
    · refine le_min zero_le_one ?_
      split
      · exact div_nonneg (elementScoreSums_nonneg siteElements patternElements).2
          (le_of_lt (by assumption))
      · exact le_refl 0
    · exact min_le_left _ _

lemma fragCredit_bounds (siteUrls : List String) (pl : String) :
    0 ≤ fragCredit siteUrls pl ∧ fragCredit siteUrls pl ≤ 1 := by
  induction siteUrls with
  | nil => exact ⟨le_refl 0, zero_le_one⟩
  | cons u rest ih =>
    rw [fragCredit]
    split_ifs
    · exact ⟨by norm_num, le_refl 1⟩
    · exact ⟨by norm_num, by norm_num⟩
    · exact ⟨by norm_num, by norm_num⟩
    · exact ih

lemma urlScore_bounds (siteUrls patternUrls : List String) :
    0 ≤ urlScore siteUrls patternUrls ∧ urlScore siteUrls patternUrls ≤ 1 := by
  unfold urlScore
  split
  · norm_num
  · rename_i hne
    rw [ratMin_eq]
    have hsum : 0 ≤ patternUrls.foldl (fun acc pu => acc + fragCredit siteUrls (pyLower pu)) 0 := by
      refine foldl_preserve (P := fun b => 0 ≤ b) ?_ patternUrls 0 (le_refl 0)
      intro b a hb
      exact add_nonneg hb (fragCredit_bounds siteUrls (pyLower a)).1
    have hlen : (0 : ℚ) < (patternUrls.length : ℚ) := by
      have : patternUrls ≠ [] := by simpa [List.isEmpty_iff] using hne
      exact_mod_cast Nat.pos_of_ne_zero (fun h => this (List.length_eq_zero.mp h))
    constructor
    · exact le_min zero_le_one (div_nonneg hsum (le_of_lt hlen))
    · exact min_le_left _ _

lemma semanticScore_bounds (sim : Option ℚ) :
    0 ≤ semanticScore sim ∧ semanticScore sim ≤ 1 := by
  cases sim with
  | none => exact ⟨le_refl 0, zero_le_one⟩
  | some q =>
    show 0 ≤ ratMax 0 (ratMin 1 ((q + 1) / 2)) ∧ ratMax 0 (ratMin 1 ((q + 1) / 2)) ≤ 1
    rw [ratMax_eq, ratMin_eq]
    exact ⟨le_max_left _ _, max_le zero_le_one (min_le_left _ _)⟩

lemma contextBonus_bounds (siteElements patternElements : List String) :
    0 ≤ contextBonus siteElements patternElements ∧
    contextBonus siteElements patternElements ≤ 3/10 := by
  unfold contextBonus
  split_ifs <;> constructor <;> norm_num

lemma calcConfidence_bounds (useSemantic : Bool) {e u s c : ℚ}
    (he : 0 ≤ e ∧ e ≤ 1) (hu : 0 ≤ u ∧ u ≤ 1) (hs : 0 ≤ s ∧ s ≤ 1)
    (hc : 0 ≤ c ∧ c ≤ 1) :
    0 ≤ calcConfidence useSemantic e u s c ∧ calcConfidence useSemantic e u s c ≤ 1 := by
  obtain ⟨he0, he1⟩ := he
  obtain ⟨hu0, hu1⟩ := hu
  obtain ⟨hs0, hs1⟩ := hs
  obtain ⟨hc0, hc1⟩ := hc
  cases useSemantic <;>
    simp only [calcConfidence, ELEMENT_WEIGHT, URL_WEIGHT, SEMANTIC_WEIGHT, CONTEXT_WEIGHT,
      Bool.false_eq_true, if_false, if_true] <;>
    constructor <;> nlinarith

/-- C5: every component signal — element score, URL score, semantic score and
context bonus — lies in [0, 1] before weighting, and the combined confidence of
any pattern on any input lies in [0, 1] in both modes. -/
theorem score_components_bounded (useSemantic : Bool) (siteElements siteUrls : List String)
    (p : FlowPattern) (sim : Option ℚ) :
    (0 ≤ elementScore siteElements p.elements ∧ elementScore siteElements p.elements ≤ 1) ∧
    (0 ≤ urlScore siteUrls p.urls ∧ urlScore siteUrls p.urls ≤ 1) ∧
    (0 ≤ semanticScore sim ∧ semanticScore sim ≤ 1) ∧
    (0 ≤ contextBonus siteElements p.elements ∧ contextBonus siteElements p.elements ≤ 1) ∧
    (0 ≤ scorePattern useSemantic siteElements siteUrls p sim ∧
      scorePattern useSemantic siteElements siteUrls p sim ≤ 1) := by
  have hcb := contextBonus_bounds siteElements p.elements
  have hcb1 : 0 ≤ contextBonus siteElements p.elements ∧
      contextBonus siteElements p.elements ≤ 1 :=
    ⟨hcb.1, le_trans hcb.2 (by norm_num)⟩
  refine ⟨elementScore_bounds _ _, urlScore_bounds _ _, semanticScore_bounds _, hcb1, ?_⟩
  exact calcConfidence_bounds useSemantic (elementScore_bounds _ _) (urlScore_bounds _ _)
    (semanticScore_bounds _) hcb1

/-- C10: the context bonus never exceeds 0.3, so with its weight of 0.10 the
combined confidence of any pattern on any input is at most
0.40 + 0.20 + 0.30 + 0.03 = 0.93 in semantic mode and
0.55 + 0.35 + 0.03 = 0.93 otherwise; confidence 1.0 is unreachable. -/
theorem confidence_cap (useSemantic : Bool) (siteElements siteUrls : List String)
    (p : FlowPattern) (sim : Option ℚ) :
    contextBonus siteElements p.elements ≤ 3/10 ∧
    scorePattern useSemantic siteElements siteUrls p sim ≤ 93/100 ∧
    scorePattern useSemantic siteElements siteUrls p sim < 1 := by
  have hcb := contextBonus_bounds siteElements p.elements
  have he := elementScore_bounds siteElements p.elements
  have hu := urlScore_bounds siteUrls p.urls
  have hcap : scorePattern useSemantic siteElements siteUrls p sim ≤ 93/100 := by
    unfold scorePattern
    cases useSemantic
    · simp only [calcConfidence, Bool.false_eq_true, if_false]
      nlinarith [he.1, he.2, hu.1, hu.2, hcb.1, hcb.2]
    · have hs0 := semanticScore_bounds sim
      simp only [calcConfidence, ELEMENT_WEIGHT, URL_WEIGHT, SEMANTIC_WEIGHT, CONTEXT_WEIGHT,
        if_true]
      nlinarith [he.1, he.2, hu.1, hu.2, hs0.1, hs0.2, hcb.1, hcb.2]
  exact ⟨hcb.2, hcap, lt_of_le_of_lt hcap (by norm_num)⟩

lemma classify_happy {conf : ℚ} (h : 7/10 ≤ conf) (ip : Bool) :
    classify conf ip = some FlowType.happy_path := by
  unfold classify CONFIDENCE_THRESHOLD
  rw [if_pos h]

lemma classify_partial {conf : ℚ} (h1 : 3/10 ≤ conf) (h2 : conf < 7/10) :
    classify conf true = some FlowType.partial_flow := by
  unfold classify CONFIDENCE_THRESHOLD
  rw [if_neg (not_le.mpr h2), if_pos ⟨h1, rfl⟩]

lemma classify_none {conf : ℚ} {ip : Bool}
    (h : conf < 3/10 ∨ (conf < 7/10 ∧ ip = false)) : classify conf ip = none := by
  unfold classify CONFIDENCE_THRESHOLD
  rcases h with h1 | ⟨h1, h2⟩
  · rw [if_neg (not_le.mpr (lt_trans h1 (by norm_num)))]
    rw [if_neg (fun hc => absurd hc.1 (not_le.mpr h1))]
  · rw [if_neg (not_le.mpr h1)]
    rw [if_neg (fun hc => by rw [h2] at hc; exact Bool.false_ne_true hc.2)]

lemma mem_insertDesc {g f : Flow} {l : List Flow} :
    g ∈ insertDesc f l ↔ g = f ∨ g ∈ l := by
  induction l with
  | nil => simp [insertDesc]
  | cons x xs ih =>
    rw [insertDesc]
    split
    · simp only [List.mem_cons, ih]
      tauto
    · simp only [List.mem_cons]

lemma mem_sortByConfDesc {g : Flow} {l : List Flow} :
    g ∈ sortByConfDesc l ↔ g ∈ l := by
  induction l with
  | nil => simp [sortByConfDesc]
  | cons x xs ih =>
    rw [sortByConfDesc, mem_insertDesc]
    simp only [List.mem_cons, ih]

/-- C1: for every scored pattern, confidence at least 0.70 puts the pattern in
the returned flows as `happy_path` (with its rounded confidence); confidence
in [0.30, 0.70) with `include_partial` true puts it in as `partial_flow`; and
confidence below 0.30, or below 0.70 with `include_partial` false, leaves no
flow for that pattern in the result. -/
theorem discover_classification (useSemantic : Bool) (siteElements siteUrls : List String)
    (patterns : List (FlowPattern × Option ℚ)) (includePartial : Bool)
    (p : FlowPattern) (sim : Option ℚ) (hmem : (p, sim) ∈ patterns) :
    (7/10 ≤ scorePattern useSemantic siteElements siteUrls p sim →
      (⟨p.pid, FlowType.happy_path,
        pyRound2 (scorePattern useSemantic siteElements siteUrls p sim)⟩ : Flow) ∈
        discoverFlows useSemantic siteElements siteUrls patterns includePartial) ∧
    (3/10 ≤ scorePattern useSemantic siteElements siteUrls p sim →
      scorePattern useSemantic siteElements siteUrls p sim < 7/10 → includePartial = true →
      (⟨p.pid, FlowType.partial_flow,
        pyRound2 (scorePattern useSemantic siteElements siteUrls p sim)⟩ : Flow) ∈
        discoverFlows useSemantic siteElements siteUrls patterns includePartial) ∧
    ((scorePattern useSemantic siteElements siteUrls p sim < 3/10 ∨
        (scorePattern useSemantic siteElements siteUrls p sim < 7/10 ∧ includePartial = false)) →
      (patterns.map (fun ps => ps.1.pid)).Nodup →
      ∀ fl ∈ discoverFlows useSemantic siteElements siteUrls patterns includePartial,
        fl.pid ≠ p.pid) := by
  refine ⟨?_, ?_, ?_⟩
  · intro h
    rw [discoverFlows, mem_sortByConfDesc]
    refine List.mem_filterMap.mpr ⟨(p, sim), hmem, ?_⟩
    rw [discoverOne, classify_happy h]
  · intro h1 h2 hip
    subst hip
    rw [discoverFlows, mem_sortByConfDesc]
    refine List.mem_filterMap.mpr ⟨(p, sim), hmem, ?_⟩
    rw [discoverOne, classify_partial h1 h2]
  · intro hlow hnodup fl hfl heq
    rw [discoverFlows, mem_sortByConfDesc] at hfl
    obtain ⟨qs, hqs, hsome⟩ := List.mem_filterMap.mp hfl
    have hpid : qs.1.pid = p.pid := by
      rw [discoverOne] at hsome
      cases hcl : classify (scorePattern useSemantic siteElements siteUrls qs.1 qs.2)
          includePartial with
      | none => rw [hcl] at hsome; exact absurd hsome (by simp)
      | some ft =>
        rw [hcl] at hsome
        have := Option.some.inj hsome
        rw [← this] at heq
        exact heq
    have hq : qs = (p, sim) :=
      List.inj_on_of_nodup_map hnodup hqs hmem hpid
    subst hq
    rw [discoverOne, classify_none hlow] at hsome
    exact absurd hsome (by simp)

/-- C1 witness: the concrete exact-match pattern has confidence at least 0.70
and is returned as a happy-path flow. -/
theorem discover_classification_witness :
    (⟨pW.pid, FlowType.happy_path, pyRound2 (scorePattern false seW suW pW none)⟩ : Flow) ∈
      discoverFlows false seW suW [(pW, none)] true :=
  (discover_classification false seW suW [(pW, none)] true pW none (by decide)).1 (by decide)

/-- C4: with semantic scoring unavailable, the exact-match scenario gives
element score exactly 1, URL score at least 0.7, combined confidence at least
0.70, and the single returned flow is classified `happy_path`. -/
theorem exact_match_scenario :
    elementScore seW pW.elements = 1 ∧
    7/10 ≤ urlScore suW pW.urls ∧
    7/10 ≤ scorePattern false seW suW pW none ∧
    discoverFlows false seW suW [(pW, none)] true =
      [⟨"cart_flow", FlowType.happy_path, 9/10⟩] :=
  ⟨by decide, by decide, by decide, by decide⟩

lemma enqueue_foldl_props (visited : List String) :
    ∀ (ls queue : List String),
      (∃ t, ls.foldl (enqueueStep visited) queue = queue ++ t) ∧
      (ls.foldl (enqueueStep visited) queue).length ≤ queue.length + ls.length ∧
      (∀ l ∈ ls.foldl (enqueueStep visited) queue,
        l ∈ queue ∨ (l ∈ ls ∧ l ∉ visited)) := by
  intro ls
  induction ls with
  | nil =>
    intro queue
    exact ⟨⟨[], by simp⟩, by simp, fun l hl => Or.inl hl⟩
  | cons x xs ih =>
    intro queue
    simp only [List.foldl_cons]
    have hstep : enqueueStep visited queue x = queue ∨
        (enqueueStep visited queue x = queue ++ [x] ∧ x ∉ visited) := by
      unfold enqueueStep
      split
      · exact Or.inl rfl
      · rename_i hg
        push_neg at hg
        exact Or.inr ⟨rfl, hg.1⟩
    obtain ⟨⟨t, ht⟩, hlen, hmem⟩ := ih (enqueueStep visited queue x)
    refine ⟨?_, ?_, ?_⟩
    · rcases hstep with h | ⟨h, _⟩
      · exact ⟨t, by rw [ht, h]⟩
      · exact ⟨[x] ++ t, by rw [ht, h, List.append_assoc]⟩
    · refine le_trans hlen ?_
      rcases hstep with h | ⟨h, _⟩
      · rw [h]; simp only [List.length_cons]; omega
      · rw [h]; simp only [List.length_append, List.length_cons, List.length_nil]; omega
    · intro l hl
      rcases hmem l hl with hq | ⟨hx, hv⟩
      · rcases hstep with h | ⟨h, hxv⟩
        · rw [h] at hq; exact Or.inl hq
        · rw [h] at hq
          rcases List.mem_append.mp hq with hq2 | hq2
          · exact Or.inl hq2
          · simp only [List.mem_singleton] at hq2
            subst hq2
            exact Or.inr ⟨List.mem_cons_self _ _, hxv⟩
      · exact Or.inr ⟨List.mem_cons_of_mem _ hx, hv⟩

lemma enqueue_foldl_exact (visited : List String) :
    ∀ (ls queue : List String), ls.Nodup →
      (∀ l ∈ ls, l ∉ visited ∧ l ∉ queue) →
      (ls.foldl (enqueueStep visited) queue).length = queue.length + ls.length := by
  intro ls
  induction ls with
  | nil => intro queue _ _; simp
  | cons x xs ih =>
    intro queue hnd hfresh
    simp only [List.foldl_cons]
    have hx := hfresh x (List.mem_cons_self _ _)
    have hstep : enqueueStep visited queue x = queue ++ [x] := by
      unfold enqueueStep
      rw [if_neg]
      rintro (h | h)
      · exact hx.1 h
      · exact hx.2 h
    rw [hstep, ih (queue ++ [x]) (List.Nodup.of_cons hnd)]
    · simp only [List.length_append, List.length_cons, List.length_nil]
      omega
    · intro l hl
      refine ⟨(hfresh l (List.mem_cons_of_mem _ hl)).1, ?_⟩
      intro hmem
      rcases List.mem_append.mp hmem with h | h
      · exact (hfresh l (List.mem_cons_of_mem _ hl)).2 h
      · simp only [List.mem_singleton] at h
        subst h
        exact (List.nodup_cons.mp hnd).1 hl

/-- C6 counterexample: a page whose extracted links start with an
already-visited URL followed by five fresh ones.  Five extracted links are
unseen and unqueued, yet only four are enqueued, because the loop slices
`new_links[:5]` before filtering. -/
theorem enqueue_cap_counterexample :
    ((["https://s.com/a", "https://s.com/b", "https://s.com/c", "https://s.com/d",
        "https://s.com/e", "https://s.com/f"].filter
        (fun l => !(l ∈ (["https://s.com/a"] : List String) ∨
          l ∈ ([] : List String)))).length = 5) ∧
    (enqueueLinks ["https://s.com/a"] []
      ["https://s.com/a", "https://s.com/b", "https://s.com/c", "https://s.com/d",
        "https://s.com/e", "https://s.com/f"]).length = 4 :=
  ⟨by decide, by decide⟩

/-- C6 amended: the crawl loop inspects only the first five extracted links and
enqueues those among them that are unvisited and unqueued, appending them at
the back of the frontier; at most five links are enqueued per page, and
exactly five only when the first five extracted links are pairwise distinct,
unvisited and unqueued. -/
theorem enqueue_cap_amended (visited queue newLinks : List String) :
    (∃ t, enqueueLinks visited queue newLinks = queue ++ t) ∧
    (enqueueLinks visited queue newLinks).length ≤ queue.length + 5 ∧
    (∀ l ∈ enqueueLinks visited queue newLinks,
      l ∈ queue ∨ (l ∈ newLinks.take 5 ∧ l ∉ visited)) ∧
    ((newLinks.take 5).Nodup →
      (∀ l ∈ newLinks.take 5, l ∉ visited ∧ l ∉ queue) →
      (enqueueLinks visited queue newLinks).length =
        queue.length + (newLinks.take 5).length) := by
  obtain ⟨hpre, hlen, hmem⟩ := enqueue_foldl_props visited (newLinks.take 5) queue
  refine ⟨hpre, ?_, hmem, ?_⟩
  · exact le_trans hlen (by have := List.length_take_le 5 newLinks; omega)
  · intro hnd hfresh
    exact enqueue_foldl_exact visited (newLinks.take 5) queue hnd hfresh

/-- C6 witness: two fresh distinct links behind a one-element queue are both
enqueued at the back. -/
theorem enqueue_cap_amended_witness :
    (enqueueLinks ["https://s.com/v"] ["https://s.com/q"]
      ["https://s.com/x", "https://s.com/y"]).length =
      (["https://s.com/q"] : List String).length +
        ((["https://s.com/x", "https://s.com/y"] : List String).take 5).length :=
  (enqueue_cap_amended ["https://s.com/v"] ["https://s.com/q"]
    ["https://s.com/x", "https://s.com/y"]).2.2.2 (by decide) (by decide)

/-- C7 counterexample: on a corrupt catalog file `_load_patterns` propagates
the JSON decode error instead of returning the empty catalog, because the
`except` clause names only `FileNotFoundError`. -/
theorem loadPatterns_corrupt_raises :
    loadPatterns CatalogFile.corrupt = Except.error "json.JSONDecodeError" := rfl

/-- C7 amended: a missing catalog file yields the empty catalog
`{"core_patterns": {}, "learned_patterns": {}}` without raising, a readable
file yields its parsed contents, but corrupt contents raise a JSON decode
error and so fail the Flow Scorer construction. -/
theorem loadPatterns_behavior :
    loadPatterns CatalogFile.missing = Except.ok emptyCatalog ∧
    loadPatterns CatalogFile.corrupt = Except.error "json.JSONDecodeError" ∧
    ∀ (c : PatternCatalog), loadPatterns (CatalogFile.parsed c) = Except.ok c :=
  ⟨rfl, rfl, fun _ => rfl⟩

lemma fragCredit_eq_noQuery (siteUrls : List String) (pl : String) :
    fragCredit siteUrls pl = fragCreditNoQuery siteUrls pl := by
  induction siteUrls with
  | nil => rfl
  | cons u rest ih =>
    rw [fragCredit, fragCreditNoQuery]
    by_cases h1 : strContains (pyLower u) pl = true
    · rw [if_pos h1, if_pos h1]
    · rw [if_neg h1, if_neg h1]
      by_cases h2 : pathSegMatch pl (pyLower u) = true
      · rw [if_pos h2, if_pos h2]
      · rw [if_neg h2, if_neg h2]
        rw [if_neg, ih]
        intro h3
        exact h1 (Bool.and_elim_right h3)

lemma fragCredit_values (siteUrls : List String) (pl : String) :
    fragCredit siteUrls pl = 0 ∨ fragCredit siteUrls pl = 7/10 ∨
    fragCredit siteUrls pl = 1 := by
  induction siteUrls with
  | nil => exact Or.inl rfl
  | cons u rest ih =>
    rw [fragCredit]
    split_ifs with h1 h2 h3
    · exact Or.inr (Or.inr rfl)
    · exact Or.inr (Or.inl rfl)
    · exact absurd (Bool.and_elim_right h3) h1
    · exact ih

lemma urlScore_foldl_eq (siteUrls : List String) :
    ∀ (patternUrls : List String) (acc : ℚ),
      patternUrls.foldl (fun a pu => a + fragCredit siteUrls (pyLower pu)) acc =
      patternUrls.foldl (fun a pu => a + fragCreditNoQuery siteUrls (pyLower pu)) acc := by
  intro patternUrls
  induction patternUrls with
  | nil => intro acc; rfl
  | cons pu rest ih =>
    intro acc
    simp only [List.foldl_cons]
    rw [fragCredit_eq_noQuery, ih]

/-- C8 counterexample: for pattern fragment `"a/b"` against the visited URLs
`["https://x.com/b/z", "https://x.com/a/b"]`, the fragment IS a direct
substring of the second visited URL — so the claim assigns full credit 1.0 —
yet the code stops at the first URL, whose path-segment tier matches, and
awards 0.7. -/
theorem urlScore_tier_counterexample :
    strContains (pyLower "https://x.com/a/b") (pyLower "a/b") = true ∧
    urlScore ["https://x.com/b/z", "https://x.com/a/b"] ["a/b"] = 7/10 :=
  ⟨by decide, by decide⟩

/-- C8 amended: for each pattern fragment the visited URLs are scanned in
order and the FIRST URL matching any tier decides the credit — direct
substring 1.0, else path-segment 0.7; the 0.8 tier for `?`-fragments is
unreachable, since its condition is a direct substring match already caught by
the first tier, so each fragment contributes 0, 0.7 or 1, and the URL score is
unchanged when the `?`-tier is deleted; the total is normalized by the number
of fragments and capped at 1. -/
theorem urlScore_first_match_semantics (siteUrls patternUrls : List String) (pl : String) :
    (fragCredit siteUrls pl = 0 ∨ fragCredit siteUrls pl = 7/10 ∨
      fragCredit siteUrls pl = 1) ∧
    fragCredit siteUrls pl = fragCreditNoQuery siteUrls pl ∧
    urlScore siteUrls patternUrls = urlScoreNoQuery siteUrls patternUrls := by
  refine ⟨fragCredit_values siteUrls pl, fragCredit_eq_noQuery siteUrls pl, ?_⟩
  unfold urlScore urlScoreNoQuery
  split
  · rfl
  · rw [urlScore_foldl_eq]

lemma no_hash_query_strip (l : List Char) :
    '#' ∉ (l.takeWhile (fun c => c ≠ '#')).takeWhile (fun c => c ≠ '?') ∧
    '?' ∉ (l.takeWhile (fun c => c ≠ '#')).takeWhile (fun c => c ≠ '?') := by
  constructor
  · intro h
    have h2 := (List.takeWhile_sublist _).subset h
    have h3 := List.mem_takeWhile_imp h2
    simp at h3
  · intro h
    have h3 := List.mem_takeWhile_imp h
    simp at h3

lemma mem_of_mem_pyRstrip {x c : Char} {u : String} (h : x ∈ (pyRstrip c u).data) :
    x ∈ u.data := by
  have h1 : x ∈ (u.data.reverse.dropWhile (· = c)).reverse := h
  rw [List.mem_reverse] at h1
  have h2 := (List.dropWhile_sublist _).subset h1
  rw [List.mem_reverse] at h2
  exact h2

lemma fullUrl_clean (baseUrl href : String) :
    '#' ∉ (pyRstrip '/' (stripFragQuery (urljoin baseUrl href))).data ∧
    '?' ∉ (pyRstrip '/' (stripFragQuery (urljoin baseUrl href))).data := by
  have hs := no_hash_query_strip (urljoin baseUrl href).data
  constructor
  · intro h
    exact hs.1 (mem_of_mem_pyRstrip h)
  · intro h
    exact hs.2 (mem_of_mem_pyRstrip h)

/-- The per-URL guarantees of the extraction loop. -/
def CleanLink (baseUrl u : String) : Prop :=
  sameSite baseUrl u = true ∧ isAssetUrl u = false ∧ '#' ∉ u.data ∧ '?' ∉ u.data

/-- The loop invariant of `extract_internal_links`: no duplicates, everything
collected was seen, and every collected URL is same-site, non-asset and free of
fragment and query markers. -/
def LinksInv (baseUrl : String) (acc : List String × List String) : Prop :=
  acc.2.Nodup ∧ (∀ x ∈ acc.2, x ∈ acc.1) ∧ ∀ x ∈ acc.2, CleanLink baseUrl x

lemma linkStep_inv (baseUrl : String) :
    ∀ (acc : List String × List String) (href : String),
      LinksInv baseUrl acc → LinksInv baseUrl (linkStep baseUrl acc href) := by
  intro acc href hinv
  obtain ⟨hnd, hsub, hclean⟩ := hinv
  unfold linkStep
  split
  · exact ⟨hnd, hsub, hclean⟩
  · split
    · exact ⟨hnd, hsub, hclean⟩
    · rename_i hns
      split
      · rename_i hguard
        refine ⟨?_, ?_, ?_⟩
        · rw [List.nodup_append]
          refine ⟨hnd, List.nodup_singleton _, ?_⟩
          rw [List.disjoint_singleton]
          intro hmem
          exact hns (hsub _ hmem)
        · intro x hx
          rcases List.mem_append.mp hx with h | h
          · exact List.mem_append.mpr (Or.inl (hsub x h))
          · exact List.mem_append.mpr (Or.inr h)
        · intro x hx
          rcases List.mem_append.mp hx with h | h
          · exact hclean x h
          · simp only [List.mem_singleton] at h
            subst h
            rw [Bool.and_eq_true, Bool.not_eq_true'] at hguard
            exact ⟨hguard.1, hguard.2, fullUrl_clean baseUrl href⟩
      · refine ⟨hnd, ?_, hclean⟩
        intro x hx
        exact List.mem_append.mpr (Or.inl (hsub x hx))

/-- C9: `extract_internal_links` returns at most 100 URLs, without duplicates,
each same-site (registrable domains agree), free of fragment and query
markers, and not ending in a static-asset extension; on the concrete scenario
of anchors to an off-domain page, a same-site image and a same-site page, only
the same-site page survives. -/
theorem extract_links_filters (hrefs : List String) (baseUrl : String) :
    (extractInternalLinks hrefs baseUrl).length ≤ 100 ∧
    (extractInternalLinks hrefs baseUrl).Nodup ∧
    (∀ u ∈ extractInternalLinks hrefs baseUrl,
      sameSite baseUrl u = true ∧ isAssetUrl u = false ∧ '#' ∉ u.data ∧ '?' ∉ u.data) ∧
    extractInternalLinks
      ["https://other.com/x", "https://site.com/img.png", "https://site.com/about"]
      "https://site.com" = ["https://site.com/about"] := by
  have hinv : LinksInv baseUrl
      (hrefs.foldl (linkStep baseUrl) (([] : List String), ([] : List String))) := by
    refine foldl_preserve (P := LinksInv baseUrl) ?_ hrefs _ ?_
    · intro acc href hacc
      exact linkStep_inv baseUrl acc href hacc
    · exact ⟨List.nodup_nil, by simp, by simp⟩
  refine ⟨?_, ?_, ?_, by decide⟩
  · unfold extractInternalLinks
    rw [List.length_take]
    exact min_le_left _ _
  · exact List.Nodup.sublist (List.take_sublist _ _) hinv.1
  · intro u hu
    have hu2 : u ∈ (hrefs.foldl (linkStep baseUrl) (([] : List String), ([] : List String))).2 :=
      (List.take_sublist _ _).subset hu
    exact hinv.2.2 u hu2

/-- C9 witness: the surviving URL of the scenario satisfies all filter
guarantees. -/
theorem extract_links_filters_witness :
    sameSite "https://site.com" "https://site.com/about" = true ∧
    isAssetUrl "https://site.com/about" = false ∧
    '#' ∉ "https://site.com/about".data ∧ '?' ∉ "https://site.com/about".data :=
  (extract_links_filters ["https://site.com/about"] "https://site.com").2.2.1
    "https://site.com/about" (by decide)

end AgentCheck
